import Mathlib

/-!
Verification of the `DDRCore` subsystem of carefree-learn
(`src/cflearn/models/ddr/core.py`) against its natural-language
specification.

Modelling conventions, used throughout:
* Python floats are modelled as exact numbers: `ℝ` for the pure
  arithmetic facts about the probability rescaling and the sigmoid
  squashing, `ℚ` for the batched tensor pipeline (every tensor
  operation used by `core.py` — column splits, elementwise sign,
  `torch.where`, multiply/add — is exact, so nothing is lost).
* A batched `(B, C)` tensor is a `List (List ℚ)` of rows; a `(B, 1)`
  tensor is flattened to its single column, a `List ℚ`.
* `Tensor.detach()` does not change the value of a tensor, only its
  autograd graph, so it is the identity in the value model.
* The external modules instantiated by the constructor
  (`PseudoInvertibleBlock`, `InvertibleBlock`, `MonotonousMapping`,
  the condition MLPs) live in `cflearn.modules.blocks`, outside the
  analysed sources; the orchestration model takes their forward
  functions as parameters (fields of `DDRModel`), and every theorem
  below is universally quantified over them.  `torch.sigmoid` applied
  to a tensor in `_y_results` is likewise carried as the function
  field `q_inv_fn` (its pointwise real-arithmetic content is treated
  separately, in the `sigmoid` section).
* A Python `dict` whose keys are the known output keys of
  `DDRCore.forward` is an ordered association list `DDict`; a value
  bound to Python `None` is the inner `Option.none`.
-/

namespace DDR

/-! ### Pure arithmetic: `q_fn` and `q_inv_fn` (core.py lines 265-271)

`DDRCore.q_fn` is `lambda q: 2.0 * q - 1.0` and `DDRCore.q_inv_fn`
is `torch.sigmoid`; pointwise on real numbers these are as follows. -/

/-- `DDRCore.q_fn`: the probability rescale `q ↦ 2q - 1` (core.py line 267). -/
def q_fn (q : ℝ) : ℝ := 2 * q - 1

/-- Pointwise real content of `torch.sigmoid`: `x ↦ 1 / (1 + exp (-x))`
(`DDRCore.q_inv_fn`, core.py line 271). -/
noncomputable def sigmoid (x : ℝ) : ℝ := 1 / (1 + Real.exp (-x))

/-- `DDRCore.q_inv_fn` is the sigmoid squashing. -/
noncomputable def q_inv_fn : ℝ → ℝ := sigmoid

lemma sigmoid_lt_half_add {t : ℝ} (ht : 0 < t) : sigmoid t < (1 + t) / 2 := by
  have hE : 0 < Real.exp (-t) := Real.exp_pos _
  have h1 : 1 - t < Real.exp (-t) := by
    have h := Real.add_one_lt_exp (x := -t) (by linarith)
    linarith
  have key : 2 < (1 + Real.exp (-t)) * (1 + t) := by nlinarith [mul_pos hE ht]
  have hpos : (0:ℝ) < 1 + Real.exp (-t) := by linarith
  rw [sigmoid, div_lt_div_iff₀ hpos (by norm_num)]
  nlinarith

lemma sigmoid_neg (x : ℝ) : sigmoid (-x) = 1 - sigmoid x := by
  have h1 : (0:ℝ) < Real.exp (-x) := Real.exp_pos _
  have h2 : (0:ℝ) < Real.exp x := Real.exp_pos _
  have hx : Real.exp x * Real.exp (-x) = 1 := by
    rw [← Real.exp_add]; simp
  simp only [sigmoid, neg_neg]
  have d1 : (1:ℝ) + Real.exp (-x) ≠ 0 := by positivity
  have d2 : (1:ℝ) + Real.exp x ≠ 0 := by positivity
  field_simp
  nlinarith [hx]

lemma sigmoid_qfn_lt {q : ℝ} (h : 1/2 < q) : sigmoid (q_fn q) < q := by
  have h1 : (0:ℝ) < 2 * q - 1 := by linarith
  have h2 := sigmoid_lt_half_add h1
  calc sigmoid (q_fn q) = sigmoid (2 * q - 1) := rfl
    _ < (1 + (2 * q - 1)) / 2 := h2
    _ = q := by ring

lemma lt_sigmoid_qfn {q : ℝ} (h : q < 1/2) : q < sigmoid (q_fn q) := by
  have h1 : sigmoid (q_fn (1 - q)) < 1 - q := sigmoid_qfn_lt (by linarith)
  have h2 : q_fn (1 - q) = -(q_fn q) := by simp [q_fn]; ring
  rw [h2, sigmoid_neg] at h1
  linarith

/-- Claim C1 (corrected): the rescale `2q - 1` followed by the sigmoid
squashing recovers `q` exactly at the median level `q = 1/2`, and at no
other level: for `q` strictly above `1/2` the round trip strictly
undershoots `q`, and for `q` strictly below `1/2` it strictly
overshoots, independent of any learned parameters. -/
theorem C1_round_trip_only_at_median :
    q_inv_fn (q_fn (1/2)) = 1/2 ∧
    (∀ q : ℝ, 1/2 < q → q < 1 → q_inv_fn (q_fn q) < q) ∧
    (∀ q : ℝ, 0 < q → q < 1/2 → q < q_inv_fn (q_fn q)) := by
  refine ⟨?_, ?_, ?_⟩
  · have h : q_fn (1/2 : ℝ) = 0 := by norm_num [q_fn]
    rw [q_inv_fn, h]
    simp [sigmoid, Real.exp_zero]
    norm_num
  · intro q h _
    exact sigmoid_qfn_lt h
  · intro q _ h
    exact lt_sigmoid_qfn h

/-- Claim C1, counterexample to the claim as stated: at the quantile
level `q = 3/4 ∈ (0,1)` the round trip `sigmoid (2q - 1)` misses `q` by
more than `1/10`, so it does not recover `q` within any reasonable
tolerance. -/
theorem C1_round_trip_counterexample :
    (0:ℝ) < 3/4 ∧ (3/4:ℝ) < 1 ∧ q_inv_fn (q_fn (3/4)) + 1/10 < 3/4 := by
  refine ⟨by norm_num, by norm_num, ?_⟩
  have hq : q_fn (3/4 : ℝ) = 1/2 := by norm_num [q_fn]
  rw [q_inv_fn, hq, sigmoid]
  have hE : (0:ℝ) < Real.exp (-(1/2)) := Real.exp_pos _
  have hX : (0:ℝ) < Real.exp (1/2) := Real.exp_pos _
  have hprod : Real.exp (1/2) * Real.exp (-(1/2)) = 1 := by
    rw [← Real.exp_add]; norm_num
  have hsq : Real.exp (1/2) * Real.exp (1/2) = Real.exp 1 := by
    rw [← Real.exp_add]; norm_num
  have he1 : Real.exp 1 < 25/9 := lt_trans Real.exp_one_lt_d9 (by norm_num)
  have hlt : Real.exp (1/2) < 5/3 := by nlinarith
  have hEgt : (3/5:ℝ) < Real.exp (-(1/2)) := by nlinarith
  have hden : (0:ℝ) < 1 + Real.exp (-(1/2)) := by linarith
  have hs : 1 / (1 + Real.exp (-(1/2))) < 5/8 := by
    rw [div_lt_iff₀ hden]
    linarith
  linarith

/-- Claim C1, witness: the corrected statement instantiated at the
concrete levels `q = 3/4` and `q = 1/4`. -/
theorem C1_round_trip_witness :
    q_inv_fn (q_fn (3/4)) < 3/4 ∧ (1/4 : ℝ) < q_inv_fn (q_fn (1/4)) :=
  ⟨C1_round_trip_only_at_median.2.1 (3/4) (by norm_num) (by norm_num),
   C1_round_trip_only_at_median.2.2 (1/4) (by norm_num) (by norm_num)⟩

/-! ### Constructor validation (`DDRCore.__init__`, core.py lines 163-187)

`__init__` raises `ValueError` when neither capability flag is set, and
(after defaulting `num_blocks` to 2) when `num_blocks` is odd; it then
defaults `latent_dim` to 512.  No other validation is performed by the
constructor.  Python integers are `Int`; the Python `%` on a positive
modulus agrees with `Int.emod`. -/

/-- Arguments of `DDRCore.__init__` (core.py lines 164-172). -/
structure DDRInitArgs where
  in_dim : Int
  fetch_q : Bool
  fetch_cdf : Bool
  num_layers : Option Int
  num_blocks : Option Int
  latent_dim : Option Int

/-- The explicit validation and defaulting performed by
`DDRCore.__init__` (core.py lines 175-187), returning the defaulted
`(num_layers, num_blocks, latent_dim)` on success and the raised
`ValueError` message otherwise. -/
def ddrInit (a : DDRInitArgs) : Except String (Int × Int × Int) :=
  if !a.fetch_q && !a.fetch_cdf then
    .error "something must be fetched, either `q` or `cdf`"
  else
    let num_layers := a.num_layers.getD 1
    let num_blocks := a.num_blocks.getD 2
    if num_blocks % 2 != 0 then
      .error "`num_blocks` should be divided by 2"
    else
      let latent_dim := a.latent_dim.getD 512
      .ok (num_layers, num_blocks, latent_dim)

/-! ### Tensors and output dictionaries -/

/-- A batched `(B, C)` tensor: one row per example. -/
abbrev Tensor := List (List ℚ)

/-- Column `j` of a batched tensor — `t.split(1, dim=1)[j]`, with the
resulting `(B, 1)` tensor flattened to its single column. -/
def col (t : Tensor) (j : ℕ) : List ℚ := t.map (fun r => r.getD j 0)

/-- The `ConditionalOutput` named tuple of `cflearn.modules.blocks`: the
block output `net` together with the condition output `cond`. -/
structure ConditionalOutput where
  net : Tensor
  cond : Tensor

/-- A latent pair `(l1, l2)` of half-width tensors. -/
abbrev LatentPair := Tensor × Tensor

/-- One `InvertibleBlock` of the coupling stack, abstracted to its
forward and inverse operators on latent pairs (the block internals live
in `cflearn.modules.blocks`, outside the analysed sources). -/
structure Block where
  fwd : LatentPair → LatentPair
  inv : LatentPair → LatentPair

instance : Inhabited Block := ⟨⟨id, id⟩⟩

/-- The output keys of `DDRCore.forward` (spec §4.4). -/
inductive DKey
  | median
  | pos_med_res
  | neg_med_res
  | y_res
  | med_add
  | med_mul
  | med_res
  | q_positive_mask
  | q_inverse
  | q
  | q_logit
  | y_inverse_res
deriving DecidableEq, Repr

/-- A value of the output mapping: a `(B, 1)` tensor (flattened to its
column) or a boolean mask such as `q_positive_mask`. -/
inductive DVal
  | tensor (t : List ℚ)
  | mask (m : List Bool)
deriving DecidableEq, Repr

/-- The output mapping of `forward`: an insertion-ordered dictionary;
a value bound to Python `None` is the inner `none`. -/
abbrev DDict := List (DKey × Option DVal)

/-- First binding of key `k`, Python `d[k]` (keys are never duplicated
by the code below). -/
def dictFind : DDict → DKey → Option (Option DVal)
  | [], _ => none
  | kv :: rest, k => if kv.1 = k then some kv.2 else dictFind rest k

/-- Python `d1.update(d2)`: existing keys keep their position and take
the new value, new keys are appended in `d2` order. -/
def dictUpdate (d1 d2 : DDict) : DDict :=
  d1.map (fun kv =>
    match dictFind d2 kv.1 with
    | some v => (kv.1, v)
    | none => kv) ++
  d2.filter (fun kv => (dictFind d1 kv.1).isNone)

/-- `d[k]` as a `(B, 1)` tensor, used where the code indexes into a
result dict whose key is known to be a present tensor. -/
def getTensor (d : DDict) (k : DKey) : List ℚ :=
  match dictFind d k with
  | some (some (.tensor t)) => t
  | _ => []

/-! ### The coupling stack traversals (core.py lines 339-341 and 365-367) -/

/-- `for block in self.blocks: q1, q2 = block(q1, q2)` — the quantile
direction applies the blocks by iterating the list in order
(core.py lines 340-341). -/
def applyBlocksFwd (blocks : List Block) (p : LatentPair) : LatentPair :=
  blocks.foldl (fun acc b => b.fwd acc) p

/-- `for i in range(self.num_blocks): y1, y2 =
self.blocks[self.num_blocks - i - 1].inverse(y1, y2)` — the CDF
direction indexes the same list at `num_blocks - i - 1` and applies
each block's inverse (core.py lines 366-367; `self.num_blocks` equals
`len(self.blocks)` by construction, core.py lines 257-263). -/
def applyBlocksInv (blocks : List Block) (p : LatentPair) : LatentPair :=
  (List.range blocks.length).foldl
    (fun acc i => (blocks.getD (blocks.length - i - 1) default).inv acc) p

/-! ### The orchestration model of `DDRCore` -/

/-- The state of a constructed `DDRCore` needed by `forward`: the two
capability flags, the latent width, the projector directions (the
`PseudoInvertibleBlock` calls `q_invertible(...)`,
`q_invertible.inverse(...)`, `y_invertible(...)`,
`y_invertible.inverse(...)` of core.py — external modules carried as
functions), the coupling stack, and the elementwise squashing
`q_inv_fn` applied to the `(B, 1)` logit tensor in `_y_results`
(`torch.sigmoid` in the code; its pointwise arithmetic is studied
separately over `ℝ`, so here it is an opaque function field). -/
structure DDRModel where
  fetch_q : Bool
  fetch_cdf : Bool
  latent_dim : ℕ
  q_to_latent : List ℚ → Tensor → LatentPair
  q_from_latent : LatentPair → Tensor → ConditionalOutput
  y_to_latent : List ℚ → Tensor → LatentPair
  y_from_latent : LatentPair → Tensor → ConditionalOutput
  blocks : List Block
  q_inv_fn : List ℚ → List ℚ

/-- `DDRCore.q_fn` applied to a rational quantile level. -/
def q_fn_rat (q : ℚ) : ℚ := 2 * q - 1

/-- `torch.sign` on a rational scalar. -/
def torchSign (x : ℚ) : ℚ := if 0 < x then 1 else if x < 0 then -1 else 0

/-- `DDRCore._get_median_outputs` (core.py lines 293-297): split the
three condition channels into `median`, `pos_med_res`, `neg_med_res`. -/
def getMedianOutputs (outputs : ConditionalOutput) : DDict :=
  [(DKey.median, some (.tensor (col outputs.cond 0))),
   (DKey.pos_med_res, some (.tensor (col outputs.cond 1))),
   (DKey.neg_med_res, some (.tensor (col outputs.cond 2)))]

/-- `DDRCore._merge_q_outputs` (core.py lines 299-317); `q_batch` here
is already rescaled by `q_fn`, as in `_q_results`.  `med_res.detach()`
is the identity on values. -/
def mergeQOutputs (q_batch : List ℚ) (outputs : ConditionalOutput)
    (median_outputs : DDict) : DDict :=
  let pos_med_res := getTensor median_outputs DKey.pos_med_res
  let neg_med_res := getTensor median_outputs DKey.neg_med_res
  let q_positive_mask := q_batch.map (fun x => decide (torchSign x = 1))
  let med_res := List.zipWith3 (fun m p n => if m then p else n)
    q_positive_mask pos_med_res neg_med_res
  let y_add := col outputs.net 0
  let y_mul := col outputs.net 1
  let y_res := List.zipWith3 (fun mr mu ad => mr * mu + ad) med_res y_mul y_add
  [(DKey.y_res, some (.tensor y_res)),
   (DKey.med_add, some (.tensor y_add)),
   (DKey.med_mul, some (.tensor y_mul)),
   (DKey.med_res, some (.tensor med_res)),
   (DKey.q_positive_mask, some (.mask q_positive_mask))]

/-- `DDRCore._median_results` (core.py lines 319-327): run a zero dummy
latent pair through the inverse of the active projector. -/
def medianResults (m : DDRModel) (net : Tensor) : DDict :=
  let dummy : Tensor := net.map (fun _ => List.replicate (m.latent_dim / 2) (0:ℚ))
  let pack :=
    if !m.fetch_q then m.q_from_latent (dummy, dummy) net
    else m.y_from_latent (dummy, dummy) net
  getMedianOutputs pack

/-- The quantile-direction pipeline of `_q_results` up to `y_pack`
(core.py lines 335-343): rescale, project to latent, traverse the
coupling stack forward, inverse-project through `y_invertible`. -/
def qBranchPack (m : DDRModel) (net : Tensor) (q_batch : List ℚ) :
    ConditionalOutput :=
  let q_rescaled := q_batch.map q_fn_rat
  let qlat := m.q_to_latent q_rescaled net
  m.y_from_latent (applyBlocksFwd m.blocks qlat) net

/-- `DDRCore._q_results` (core.py lines 329-353) with the `q_inverse`
slot passed in (the mutual recursion between `_q_results` and
`_y_results` is unrolled below; inner calls always pass
`do_inverse=False`). -/
def qResultsWith (m : DDRModel) (net : Tensor) (q_batch : List ℚ)
    (q_inverse : Option DVal) : DDict :=
  let y_pack := qBranchPack m net q_batch
  let median_outputs := getMedianOutputs y_pack
  mergeQOutputs (q_batch.map q_fn_rat) y_pack median_outputs ++
    [(DKey.q_inverse, q_inverse)]

/-- The `y_res` value produced by `_q_results` (used as the round-trip
input `y_res.detach()` of core.py line 350). -/
def qResultsYres (m : DDRModel) (net : Tensor) (q_batch : List ℚ) : List ℚ :=
  getTensor (qResultsWith m net q_batch none) DKey.y_res

/-- The CDF-direction pipeline of `_y_results` up to `q_logit`
(core.py lines 361-370): project the median residual to latent,
traverse the coupling stack in reverse with each block's inverse,
inverse-project through `q_invertible`. -/
def yBranchLogit (m : DDRModel) (net : Tensor) (median_residual : List ℚ) :
    List ℚ :=
  let ylat := m.y_to_latent median_residual net
  col (m.q_from_latent (applyBlocksInv m.blocks ylat) net).net 0

/-- The `q` value of `_y_results`: `q = self.q_inv_fn(q_logit)`
(core.py line 371). -/
def yResultsQ (m : DDRModel) (net : Tensor) (median_residual : List ℚ) :
    List ℚ :=
  m.q_inv_fn (yBranchLogit m net median_residual)

/-- `DDRCore._y_results` (core.py lines 355-376) with the
`y_inverse_res` slot passed in. -/
def yResultsWith (m : DDRModel) (net : Tensor) (median_residual : List ℚ)
    (y_inverse_res : Option DVal) : DDict :=
  [(DKey.q, some (.tensor (yResultsQ m net median_residual))),
   (DKey.q_logit, some (.tensor (yBranchLogit m net median_residual))),
   (DKey.y_inverse_res, y_inverse_res)]

/-- `DDRCore._q_results` with its `do_inverse` round trip (core.py
lines 346-353): `q_inverse` is `None` unless `do_inverse` and
`fetch_cdf`, in which case it is the `q` produced by `_y_results` on
the detached `y_res`. -/
def qResults (m : DDRModel) (net : Tensor) (q_batch : List ℚ)
    (do_inverse : Bool) : DDict :=
  qResultsWith m net q_batch
    (if do_inverse && m.fetch_cdf then
      some (.tensor (yResultsQ m net (qResultsYres m net q_batch)))
    else none)

/-- `DDRCore._y_results` with its `do_inverse` round trip (core.py
lines 372-376): `y_inverse_res` is `None` unless `do_inverse` and
`fetch_q`, in which case it is the `y_res` produced by `_q_results` on
the detached `q`. -/
def yResults (m : DDRModel) (net : Tensor) (median_residual : List ℚ)
    (do_inverse : Bool) : DDict :=
  yResultsWith m net median_residual
    (if do_inverse && m.fetch_q then
      some (.tensor (qResultsYres m net (yResultsQ m net median_residual)))
    else none)

/-- `DDRCore.forward` (core.py lines 378-393): always compute the
median branch; run the quantile branch when `fetch_q`, not `median`,
and `q_batch` is given; run the CDF branch on
`y_batch - results["median"].detach()` when `fetch_cdf`, not `median`,
and `y_batch` is given. -/
def forwardDDR (m : DDRModel) (net : Tensor) (median : Bool)
    (do_inverse : Bool) (q_batch : Option (List ℚ))
    (y_batch : Option (List ℚ)) : DDict :=
  let results := medianResults m net
  let results :=
    match q_batch with
    | some qb =>
      if m.fetch_q && !median then
        dictUpdate results (qResults m net qb do_inverse)
      else results
    | none => results
  match y_batch with
  | some yb =>
    if m.fetch_cdf && !median then
      let median_residual :=
        List.zipWith (fun y med => y - med) yb (getTensor results DKey.median)
      dictUpdate results (yResults m net median_residual do_inverse)
    else results
  | none => results

/-! ### The gradient-isolation scope (`DDRCore._detach_q`, core.py
lines 277-291)

`switch_requires_grad` (from `cflearn.misc.toolkit`) sets the
`requires_grad` flag of every parameter in a list to a given boolean;
a parameter group is modelled by its list of flags.  The scope's
`__enter__` switches both groups to `not fetch_q`; its `_normal_exit`
— run by `context_error_handler` when the body completes without
raising — switches both groups to the constant `True`. -/

/-- `switch_requires_grad(params, flag)`: every flag in the group is
set to `flag`. -/
def switch_requires_grad (params : List Bool) (flag : Bool) : List Bool :=
  params.map (fun _ => flag)

/-- The `requires_grad` flags of the two parameter groups toggled by
`_detach_q`: the cached "q parameters" and the coupling-block
parameters (core.py lines 249-263). -/
structure GradFlags where
  q_parameters : List Bool
  block_parameters : List Bool
deriving DecidableEq, Repr

/-- The local `switch` closure of `_detach_q` (core.py lines 280-282). -/
def detachQSwitch (s : GradFlags) (flag : Bool) : GradFlags :=
  ⟨switch_requires_grad s.q_parameters flag,
   switch_requires_grad s.block_parameters flag⟩

/-- Running a body inside the `_detach_q` scope along the normal
(non-raising) path: `__enter__` switches to `not fetch_q`, the body
runs, `_normal_exit` switches to `True` (core.py lines 284-289). -/
def detachQRun (fetch_q : Bool) (body : GradFlags → GradFlags)
    (s : GradFlags) : GradFlags :=
  detachQSwitch (body (detachQSwitch s (!fetch_q))) true

/-! ### Construction-time sharing of condition blocks
(`monotonous_builder._split_core`, core.py lines 140-158, and
`DDRCore.__init__`, core.py lines 188-248)

Only object identity matters for claim C9, so each freshly created
condition `ModuleList` is given a fresh allocation index (a `ℕ`),
threaded through construction in program order.  `_core` (core.py
lines 90-138) creates a fresh condition module exactly when its
`cond_mappings` argument is `None` or empty, and reuses the passed
object otherwise. -/

/-- A `MonoSplit` module reduced to the identities of the condition
blocks of its two sub-mappings `m1` and `m2` — or `nn.Identity`, the
result of `DDRCore.dummy_builder` (core.py line 275). -/
inductive SplitModule
  | identity
  | monoSplit (m1_condition_blocks m2_condition_blocks : ℕ)
deriving DecidableEq, Repr

/-- `_core`'s choice of condition mappings (core.py lines 124-130):
allocate a fresh module when given `None` or an empty list (`none`
here), reuse the passed module otherwise.  Returns the chosen identity
and the next allocator state. -/
def coreCond (cond_mappings : Option ℕ) (st : ℕ) : ℕ × ℕ :=
  match cond_mappings with
  | none => (st, st + 1)
  | some r => (r, st)

/-- `_split_core` (core.py lines 140-158): with no `invertible_module`,
or when its `from_latent` is `nn.Identity`, both sub-mappings get fresh
condition blocks; otherwise the condition blocks of the module's
`from_latent.m1` and `from_latent.m2` are reused. -/
def splitCore (invertible_from_latent : Option SplitModule) (st : ℕ) :
    SplitModule × ℕ :=
  match invertible_from_latent with
  | some (SplitModule.monoSplit c1 c2) =>
    let p1 := coreCond (some c1) st
    let p2 := coreCond (some c2) p1.2
    (SplitModule.monoSplit p1.1 p2.1, p2.2)
  | _ =>
    let p1 := coreCond none st
    let p2 := coreCond none p1.2
    (SplitModule.monoSplit p1.1 p2.1, p2.2)

/-- The four projector sub-modules of a constructed `DDRCore`:
`q_invertible.to_latent`, `q_invertible.from_latent`,
`y_invertible.to_latent`, `y_invertible.from_latent`. -/
structure DDRModules where
  q_to : SplitModule
  q_from : SplitModule
  y_to : SplitModule
  y_from : SplitModule
deriving DecidableEq, Repr

/-- Module construction order of `DDRCore.__init__` (core.py lines
188-241): the q projector's two directions, then the y projector's two
directions; a direction whose builder is `dummy_builder` is
`nn.Identity`; `y_invertible.from_latent` is built with
`invertible_module=self.q_invertible`, hence reuses the condition
blocks of `q_invertible.from_latent` when the latter is not
`nn.Identity`. -/
def ddrBuildModules (fetch_q fetch_cdf : Bool) : DDRModules :=
  let p1 := if fetch_q then splitCore none 0 else (SplitModule.identity, 0)
  let p2 := if fetch_cdf then splitCore none p1.2 else (SplitModule.identity, p1.2)
  let p3 := if fetch_cdf then splitCore none p2.2 else (SplitModule.identity, p2.2)
  let p4 := if fetch_q then splitCore (some p2.1) p3.2 else (SplitModule.identity, p3.2)
  ⟨p1.1, p2.1, p3.1, p4.1⟩

/-! ### Concrete instances used by counterexamples and witnesses -/

/-- A concrete `ConditionalOutput` with a `(1, 2)` block output and a
`(1, 3)` condition output. -/
def packEx : ConditionalOutput := ⟨[[5, 7]], [[1, 2, 3]]⟩

/-- A concrete core with both capabilities enabled; the external
module functions are simple constants, which is enough for the claims
about output keys and gating. -/
def mBoth : DDRModel where
  fetch_q := true
  fetch_cdf := true
  latent_dim := 2
  q_to_latent := fun _ _ => ([[0]], [[0]])
  q_from_latent := fun _ _ => packEx
  y_to_latent := fun _ _ => ([[0]], [[0]])
  y_from_latent := fun _ _ => packEx
  blocks := [default, default]
  q_inv_fn := fun l => l

/-- `mBoth` with only the quantile capability. -/
def mQonly : DDRModel := { mBoth with fetch_cdf := false }

/-- `mBoth` with only the CDF capability. -/
def mCdfOnly : DDRModel := { mBoth with fetch_q := false }

/-! ### Theorems: coupling-stack traversal order (C7) -/

lemma applyBlocksInv_eq_foldr (blocks : List Block) (p : LatentPair) :
    applyBlocksInv blocks p = blocks.foldr (fun b acc => b.inv acc) p := by
  induction blocks with
  | nil => simp [applyBlocksInv]
  | cons b bs ih =>
    rw [applyBlocksInv, List.length_cons, List.range_succ, List.foldl_append]
    have hcong :
        (List.range bs.length).foldl
          (fun acc i => ((b :: bs).getD (bs.length + 1 - i - 1) default).inv acc) p
        = (List.range bs.length).foldl
          (fun acc i => (bs.getD (bs.length - i - 1) default).inv acc) p := by
      apply List.foldl_ext
      intro acc i hi
      have hi' : i < bs.length := List.mem_range.mp hi
      have h1 : bs.length + 1 - i - 1 = (bs.length - i - 1) + 1 := by omega
      rw [h1, List.getD_cons_succ]
    rw [List.foldl_cons, List.foldl_nil, hcong]
    have h0 : bs.length + 1 - bs.length - 1 = 0 := by omega
    rw [h0, List.getD_cons_zero, List.foldr_cons]
    rw [applyBlocksInv] at ih
    rw [ih]

/-- Claim C7 (confirmed): the quantile direction consumes the block
list front-first with each block's forward operator (`for block in
self.blocks`), while the CDF direction — whose loop indexes
`self.blocks[num_blocks - i - 1]` — consumes the same list back-first
with each block's inverse operator: appending a block at the end makes
it the first one inverted. -/
theorem C7_block_order :
    (∀ (b : Block) (bs : List Block) (p : LatentPair),
      applyBlocksFwd (b :: bs) p = applyBlocksFwd bs (b.fwd p)) ∧
    (∀ (b : Block) (bs : List Block) (p : LatentPair),
      applyBlocksInv (bs ++ [b]) p = applyBlocksInv bs (b.inv p)) := by
  constructor
  · intro b bs p
    simp [applyBlocksFwd]
  · intro b bs p
    rw [applyBlocksInv_eq_foldr, applyBlocksInv_eq_foldr, List.foldr_append,
      List.foldr_cons, List.foldr_nil]

/-! ### Theorems: constructor validation (C2) -/

/-- Claim C2 (corrected): construction fails exactly when neither
capability is requested or the (defaulted) block count is odd; the
constructor performs no dimension validation, so non-positive
dimensions do not make it raise. -/
theorem C2_init_error_iff (a : DDRInitArgs) :
    (∃ e, ddrInit a = .error e) ↔
      (a.fetch_q = false ∧ a.fetch_cdf = false) ∨
        (a.num_blocks.getD 2) % 2 ≠ 0 := by
  cases hq : a.fetch_q <;> cases hc : a.fetch_cdf <;>
    by_cases hb : (a.num_blocks.getD 2) % 2 = 0 <;>
      simp [ddrInit, hq, hc, hb, bne_iff_ne]

/-- Claim C2, counterexample to the claim as stated: at the concrete
input `in_dim = 0`, `latent_dim = 0` (both non-positive),
`fetch_q = True`, `fetch_cdf = False`, the claim says construction
raises a configuration error, but the constructor succeeds. -/
theorem C2_counterexample :
    ddrInit ⟨0, true, false, none, none, some 0⟩ = .ok (1, 2, 0) := by
  rfl

/-! ### Theorems: gradient-isolation scope (C4) -/

/-- Claim C4 (corrected): along the normal (non-raising) exit path the
`_detach_q` scope leaves every `requires_grad` flag of the q-parameter
group and of the coupling-block group equal to the constant `True` —
not to its saved pre-call value — whatever the capability flag, the
body, and the pre-call flags were. -/
theorem C4_detach_q_exit_all_true (fetch_q : Bool)
    (body : GradFlags → GradFlags) (s : GradFlags) :
    (detachQRun fetch_q body s).q_parameters.all (fun b => b) = true ∧
    (detachQRun fetch_q body s).block_parameters.all (fun b => b) = true := by
  constructor <;>
    simp [detachQRun, detachQSwitch, switch_requires_grad, List.all_eq_true]

/-- Claim C4, counterexample to the claim as stated: a pre-call state
in which one q parameter is frozen (`requires_grad = False`) is not
restored on exit — the scope exits with the flag forced to `True`. -/
theorem C4_counterexample :
    detachQRun true id ⟨[false], []⟩ ≠ ⟨[false], []⟩ := by
  decide

/-! ### Theorems: condition-block sharing (C9) -/

/-- Claim C9 (confirmed): with both capabilities enabled, the condition
blocks of `y_invertible.from_latent.m1` and `.m2` are the very objects
allocated for `q_invertible.from_latent.m1` and `.m2` — construction
reuses them rather than allocating fresh ones — while unrelated
sub-modules (such as `q_invertible.to_latent`) receive distinct fresh
allocations. -/
theorem C9_condition_blocks_shared :
    (∃ c1 c2,
      (ddrBuildModules true true).q_from = SplitModule.monoSplit c1 c2 ∧
      (ddrBuildModules true true).y_from = SplitModule.monoSplit c1 c2) ∧
    (ddrBuildModules true true).q_to ≠ (ddrBuildModules true true).q_from :=
  ⟨⟨2, 3, rfl, rfl⟩, by decide⟩

/-! ### Theorems: median-only calls (C8, C5) -/

/-- Claim C8 (confirmed): a `median=True` call returns exactly the
three median keys, in order, whatever the capabilities, inputs and
`do_inverse` are — no quantile- or CDF-direction key appears. -/
theorem C8_median_only_keys (m : DDRModel) (net : Tensor)
    (do_inverse : Bool) (q_batch y_batch : Option (List ℚ)) :
    (forwardDDR m net true do_inverse q_batch y_batch).map Prod.fst =
      [DKey.median, DKey.pos_med_res, DKey.neg_med_res] := by
  cases q_batch <;> cases y_batch <;>
    simp [forwardDDR, medianResults, getMedianOutputs]

/-- Claim C5 (corrected): `forward` with `median=True` and an explicit
`q_batch` does not raise — the quantile level is silently ignored: the
call returns exactly what the same call without `q_batch` returns. -/
theorem C5_median_with_q_batch_ignored (m : DDRModel) (net : Tensor)
    (do_inverse : Bool) (qb : List ℚ) (y_batch : Option (List ℚ)) :
    forwardDDR m net true do_inverse (some qb) y_batch =
      forwardDDR m net true do_inverse none y_batch := by
  cases y_batch <;> simp [forwardDDR]

/-- Claim C5, counterexample to the claim as stated: at a concrete
core and batch, `forward(median=True, q_batch=[[1]])` returns a normal
median-only mapping instead of raising a contract-violation error. -/
theorem C5_counterexample :
    (forwardDDR mBoth [[0]] true false (some [1]) none).map Prod.fst =
      [DKey.median, DKey.pos_med_res, DKey.neg_med_res] := by
  decide

/-! ### Theorems: null-filled versus omitted keys (C6) -/

lemma dictFind_mem {d : DDict} {k : DKey} {v : Option DVal}
    (h : dictFind d k = some v) : (k, v) ∈ d := by
  induction d with
  | nil => simp [dictFind] at h
  | cons kv rest ih =>
    rw [dictFind] at h
    split at h
    next heq =>
      cases h
      exact heq ▸ List.mem_cons_self _ _
    next =>
      exact List.mem_cons_of_mem _ (ih h)

lemma mem_dictUpdate {kv : DKey × Option DVal} {d1 d2 : DDict}
    (h : kv ∈ dictUpdate d1 d2) : kv ∈ d1 ∨ kv ∈ d2 := by
  rcases List.mem_append.mp h with h1 | h2
  · rcases List.mem_map.mp h1 with ⟨kv', hkv', heq⟩
    cases hfind : dictFind d2 kv'.1 with
    | none => rw [hfind] at heq; exact Or.inl (heq ▸ hkv')
    | some v =>
      rw [hfind] at heq
      exact Or.inr (heq ▸ dictFind_mem hfind)
  · exact Or.inr (List.mem_filter.mp h2).1

lemma mem_getMedianOutputs {kv : DKey × Option DVal} {p : ConditionalOutput}
    (h : kv ∈ getMedianOutputs p) : kv.2 ≠ none := by
  simp only [getMedianOutputs, List.mem_cons, List.not_mem_nil, or_false] at h
  rcases h with rfl | rfl | rfl <;> simp

lemma mem_medianResults {kv : DKey × Option DVal} {m : DDRModel} {net : Tensor}
    (h : kv ∈ medianResults m net) : kv.2 ≠ none := by
  unfold medianResults at h
  exact mem_getMedianOutputs h

lemma mem_qResultsWith {kv : DKey × Option DVal} {m : DDRModel} {net : Tensor}
    {qb : List ℚ} {slot : Option DVal}
    (h : kv ∈ qResultsWith m net qb slot) (hnone : kv.2 = none) :
    kv.1 = DKey.q_inverse := by
  simp only [qResultsWith, mergeQOutputs, List.mem_append, List.mem_cons,
    List.not_mem_nil, or_false] at h
  rcases h with (rfl | rfl | rfl | rfl | rfl) | rfl <;> simp_all

lemma mem_yResultsWith {kv : DKey × Option DVal} {m : DDRModel} {net : Tensor}
    {mres : List ℚ} {slot : Option DVal}
    (h : kv ∈ yResultsWith m net mres slot) (hnone : kv.2 = none) :
    kv.1 = DKey.y_inverse_res := by
  simp only [yResultsWith, List.mem_cons, List.not_mem_nil, or_false] at h
  rcases h with rfl | rfl | rfl <;> simp_all

lemma mem_qResults {kv : DKey × Option DVal} {m : DDRModel} {net : Tensor}
    {qb : List ℚ} {di : Bool}
    (h : kv ∈ qResults m net qb di) (hnone : kv.2 = none) :
    kv.1 = DKey.q_inverse := by
  unfold qResults at h
  exact mem_qResultsWith h hnone

lemma mem_yResults {kv : DKey × Option DVal} {m : DDRModel} {net : Tensor}
    {mres : List ℚ} {di : Bool}
    (h : kv ∈ yResults m net mres di) (hnone : kv.2 = none) :
    kv.1 = DKey.y_inverse_res := by
  unfold yResults at h
  exact mem_yResultsWith h hnone

lemma forwardDDR_none_none (m : DDRModel) (net : Tensor)
    (median do_inverse : Bool) :
    forwardDDR m net median do_inverse none none = medianResults m net := rfl

lemma forwardDDR_some_none (m : DDRModel) (net : Tensor)
    (median do_inverse : Bool) (qb : List ℚ) :
    forwardDDR m net median do_inverse (some qb) none =
      (if m.fetch_q && !median then
        dictUpdate (medianResults m net) (qResults m net qb do_inverse)
      else medianResults m net) := rfl

lemma forwardDDR_none_some (m : DDRModel) (net : Tensor)
    (median do_inverse : Bool) (yb : List ℚ) :
    forwardDDR m net median do_inverse none (some yb) =
      (if m.fetch_cdf && !median then
        dictUpdate (medianResults m net)
          (yResults m net
            (List.zipWith (fun y med => y - med) yb
              (getTensor (medianResults m net) DKey.median)) do_inverse)
      else medianResults m net) := rfl

lemma forwardDDR_some_some (m : DDRModel) (net : Tensor)
    (median do_inverse : Bool) (qb yb : List ℚ) :
    forwardDDR m net median do_inverse (some qb) (some yb) =
      (if m.fetch_cdf && !median then
        dictUpdate
          (if m.fetch_q && !median then
            dictUpdate (medianResults m net) (qResults m net qb do_inverse)
          else medianResults m net)
          (yResults m net
            (List.zipWith (fun y med => y - med) yb
              (getTensor
                (if m.fetch_q && !median then
                  dictUpdate (medianResults m net)
                    (qResults m net qb do_inverse)
                else medianResults m net) DKey.median)) do_inverse)
      else
        (if m.fetch_q && !median then
          dictUpdate (medianResults m net) (qResults m net qb do_inverse)
        else medianResults m net)) := rfl

/-- Claim C6 (corrected): in the output mapping of `forward`, the only
keys that can be bound to `None` are the round-trip keys `q_inverse`
and `y_inverse_res` (which their branches null-fill whenever the round
trip is not computed); every other key, when present, is bound to an
actual value. -/
theorem C6_none_only_round_trip_keys (m : DDRModel) (net : Tensor)
    (median do_inverse : Bool) (q_batch y_batch : Option (List ℚ))
    (kv : DKey × Option DVal)
    (hmem : kv ∈ forwardDDR m net median do_inverse q_batch y_batch)
    (hnone : kv.2 = none) :
    kv.1 = DKey.q_inverse ∨ kv.1 = DKey.y_inverse_res := by
  cases q_batch with
  | none =>
    cases y_batch with
    | none =>
      rw [forwardDDR_none_none] at hmem
      exact absurd hnone (mem_medianResults hmem)
    | some yb =>
      rw [forwardDDR_none_some] at hmem
      split at hmem
      · rcases mem_dictUpdate hmem with h | h
        · exact absurd hnone (mem_medianResults h)
        · exact Or.inr (mem_yResults h hnone)
      · exact absurd hnone (mem_medianResults hmem)
  | some qb =>
    cases y_batch with
    | none =>
      rw [forwardDDR_some_none] at hmem
      split at hmem
      · rcases mem_dictUpdate hmem with h | h
        · exact absurd hnone (mem_medianResults h)
        · exact Or.inl (mem_qResults h hnone)
      · exact absurd hnone (mem_medianResults hmem)
    | some yb =>
      rw [forwardDDR_some_some] at hmem
      split at hmem
      · rcases mem_dictUpdate hmem with h | h
        · split at h
          · rcases mem_dictUpdate h with h2 | h2
            · exact absurd hnone (mem_medianResults h2)
            · exact Or.inl (mem_qResults h2 hnone)
          · exact absurd hnone (mem_medianResults h)
        · exact Or.inr (mem_yResults h hnone)
      · split at hmem
        · rcases mem_dictUpdate hmem with h | h
          · exact absurd hnone (mem_medianResults h)
          · exact Or.inl (mem_qResults h hnone)
        · exact absurd hnone (mem_medianResults hmem)

/-- Claim C6, counterexample to the claim as stated: at a concrete
core with only the quantile capability, calling `forward` with a
`q_batch` and `do_inverse=False` yields a mapping in which the key
`q_inverse` is present and bound to `None` — a branch that was not
computed is null-filled, not omitted. -/
theorem C6_counterexample :
    (DKey.q_inverse, (none : Option DVal)) ∈
      forwardDDR mQonly [[0]] false false (some [1]) none := by
  decide

/-- Claim C6, witness: the corrected statement applied to the concrete
null-filled entry exhibited by the counterexample's configuration. -/
theorem C6_witness :
    (DKey.q_inverse, (none : Option DVal)).1 = DKey.q_inverse ∨
      (DKey.q_inverse, (none : Option DVal)).1 = DKey.y_inverse_res :=
  C6_none_only_round_trip_keys mQonly [[0]] false false (some [1]) none
    (DKey.q_inverse, none) (by decide) rfl

/-! ### Theorems: round-trip gating (C10) -/

/-- Claim C10 (confirmed): with `do_inverse=True` the round trip is
silently skipped — never raised as an error — when the opposite
capability is disabled: the quantile branch binds `q_inverse` to
`None` when `fetch_cdf` is off, and the CDF branch binds
`y_inverse_res` to `None` when `fetch_q` is off; when both
capabilities are on, the round-trip values are actually computed (the
`q` of `_y_results` on the detached `y_res`, and the `y_res` of
`_q_results` on the detached `q`); with `do_inverse=False` both
round-trip keys are `None` even when both capabilities are on. -/
theorem C10_round_trip_gating (m : DDRModel) (net : Tensor) (qb yb : List ℚ) :
    (m.fetch_q = true → m.fetch_cdf = false →
      dictFind (forwardDDR m net false true (some qb) (some yb))
        DKey.q_inverse = some none) ∧
    (m.fetch_q = false → m.fetch_cdf = true →
      dictFind (forwardDDR m net false true (some qb) (some yb))
        DKey.y_inverse_res = some none) ∧
    (m.fetch_q = true → m.fetch_cdf = true →
      dictFind (forwardDDR m net false true (some qb) none)
        DKey.q_inverse =
        some (some (.tensor (yResultsQ m net (qResultsYres m net qb)))) ∧
      dictFind (forwardDDR m net false true none (some yb))
        DKey.y_inverse_res =
        some (some (.tensor (qResultsYres m net (yResultsQ m net
          (List.zipWith (fun y med => y - med) yb
            (getTensor (medianResults m net) DKey.median))))))) ∧
    (m.fetch_q = true → m.fetch_cdf = true →
      dictFind (forwardDDR m net false false (some qb) (some yb))
        DKey.q_inverse = some none ∧
      dictFind (forwardDDR m net false false (some qb) (some yb))
        DKey.y_inverse_res = some none) := by
  refine ⟨?_, ?_, ?_, ?_⟩
  · intro hq hc
    simp [forwardDDR_some_some, hq, hc, dictUpdate, dictFind, medianResults,
      getMedianOutputs, qResults, qResultsWith, mergeQOutputs, yResults,
      yResultsWith, getTensor]
  · intro hq hc
    simp [forwardDDR_some_some, hq, hc, dictUpdate, dictFind, medianResults,
      getMedianOutputs, qResults, qResultsWith, mergeQOutputs, yResults,
      yResultsWith, getTensor]
  · intro hq hc
    constructor
    · simp [forwardDDR_some_none, hq, hc, dictUpdate, dictFind, medianResults,
        getMedianOutputs, qResults, qResultsWith, mergeQOutputs, getTensor]
    · simp [forwardDDR_none_some, hq, hc, dictUpdate, dictFind, medianResults,
        getMedianOutputs, yResults, yResultsWith, getTensor]
  · intro hq hc
    constructor <;>
      simp [forwardDDR_some_some, hq, hc, dictUpdate, dictFind, medianResults,
        getMedianOutputs, qResults, qResultsWith, mergeQOutputs, yResults,
        yResultsWith, getTensor]

/-- Claim C10, witness: the gating statement applied at concrete cores
— quantile-only, CDF-only, and both-capability — on concrete batches. -/
theorem C10_round_trip_gating_witness :
    (dictFind (forwardDDR mQonly [[0]] false true (some [1]) (some [2]))
      DKey.q_inverse = some none) ∧
    (dictFind (forwardDDR mCdfOnly [[0]] false true (some [1]) (some [2]))
      DKey.y_inverse_res = some none) ∧
    (dictFind (forwardDDR mBoth [[0]] false true (some [1]) none)
      DKey.q_inverse =
      some (some (.tensor (yResultsQ mBoth [[0]]
        (qResultsYres mBoth [[0]] [1]))))) ∧
    (dictFind (forwardDDR mBoth [[0]] false false (some [1]) (some [2]))
      DKey.q_inverse = some none) :=
  ⟨(C10_round_trip_gating mQonly [[0]] [1] [2]).1 rfl rfl,
   (C10_round_trip_gating mCdfOnly [[0]] [1] [2]).2.1 rfl rfl,
   ((C10_round_trip_gating mBoth [[0]] [1] [2]).2.2.1 rfl rfl).1,
   ((C10_round_trip_gating mBoth [[0]] [1] [2]).2.2.2 rfl rfl).1⟩

/-! ### Theorems: quantile-direction merge (C3) -/

lemma zipWith3_map_first {α α' β γ δ : Type} (f : α → α') (g : α' → β → γ → δ)
    (l1 : List α) (l2 : List β) (l3 : List γ) :
    List.zipWith3 g (l1.map f) l2 l3 =
      List.zipWith3 (fun a b c => g (f a) b c) l1 l2 l3 := by
  induction l1 generalizing l2 l3 with
  | nil => simp [List.zipWith3]
  | cons a as ih =>
    cases l2 with
    | nil => simp [List.zipWith3]
    | cons b bs =>
      cases l3 with
      | nil => simp [List.zipWith3]
      | cons c cs => simp [List.zipWith3, ih]

lemma torchSign_qfn_eq_one_iff (q : ℚ) :
    torchSign (q_fn_rat q) = 1 ↔ 1/2 < q := by
  unfold torchSign q_fn_rat
  by_cases h : (0:ℚ) < 2 * q - 1
  · rw [if_pos h]
    constructor
    · intro _; linarith
    · intro _; rfl
  · rw [if_neg h]
    have hq : ¬ ((1:ℚ)/2 < q) := fun hc => h (by linarith)
    split
    · constructor
      · intro habs; norm_num at habs
      · intro hc; exact absurd hc hq
    · constructor
      · intro habs; norm_num at habs
      · intro hc; exact absurd hc hq

lemma torchSign_qfn_eq_one_iff_inv (q : ℚ) :
    torchSign (q_fn_rat q) = 1 ↔ (2⁻¹ : ℚ) < q := by
  rw [torchSign_qfn_eq_one_iff]
  norm_num

lemma zipWith3_sign_mask (qb pos neg : List ℚ) :
    List.zipWith3 (fun (b : Bool) p n => if b then p else n)
      (List.map ((fun x => decide (torchSign x = 1)) ∘ q_fn_rat) qb) pos neg =
    List.zipWith3 (fun q p n => if (2⁻¹:ℚ) < q then p else n) qb pos neg := by
  rw [zipWith3_map_first]
  congr 1
  funext a b c
  by_cases h : (2⁻¹:ℚ) < a
  · simp [Function.comp_apply, h, (torchSign_qfn_eq_one_iff_inv a).mpr h]
  · have h2 : ¬ torchSign (q_fn_rat a) = 1 :=
      fun hc => h ((torchSign_qfn_eq_one_iff_inv a).mp hc)
    simp [Function.comp_apply, h, h2]

/-- Claim C3 (confirmed): in the quantile direction the final value is
`y_res = med_res.detach() * y_mul + y_add`, where `med_res` selects —
elementwise, by the sign of the rescaled level — the positive-side
median residual exactly when `sign(2q - 1) == 1`, i.e. when
`q > 1/2`, and the negative-side residual otherwise; in particular at
`q = 1/2` the rescaled level is `0`, `sign(0) ≠ 1`, and the negative
residual is selected. -/
theorem C3_quantile_merge (m : DDRModel) (net : Tensor) (qb : List ℚ) :
    torchSign (q_fn_rat (1/2)) ≠ 1 ∧
    dictFind (qResults m net qb false) DKey.q_positive_mask =
      some (some (.mask (qb.map (fun q => decide ((1:ℚ)/2 < q))))) ∧
    dictFind (qResults m net qb false) DKey.med_res =
      some (some (.tensor
        (List.zipWith3 (fun q p n => if (1:ℚ)/2 < q then p else n) qb
          (col (qBranchPack m net qb).cond 1)
          (col (qBranchPack m net qb).cond 2)))) ∧
    dictFind (qResults m net qb false) DKey.y_res =
      some (some (.tensor
        (List.zipWith3 (fun mr mu ad => mr * mu + ad)
          (List.zipWith3 (fun q p n => if (1:ℚ)/2 < q then p else n) qb
            (col (qBranchPack m net qb).cond 1)
            (col (qBranchPack m net qb).cond 2))
          (col (qBranchPack m net qb).net 1)
          (col (qBranchPack m net qb).net 0)))) := by
  refine ⟨by norm_num [torchSign, q_fn_rat], ?_, ?_, ?_⟩
  · simp [qResults, qResultsWith, mergeQOutputs, getMedianOutputs, getTensor,
      dictFind]
    intro a _
    exact torchSign_qfn_eq_one_iff_inv a
  · simp [qResults, qResultsWith, mergeQOutputs, getMedianOutputs, getTensor,
      dictFind]
    exact zipWith3_sign_mask qb _ _
  · simp [qResults, qResultsWith, mergeQOutputs, getMedianOutputs, getTensor,
      dictFind]
    rw [zipWith3_sign_mask]

end DDR
